import Mathlib

/-!
Verification of the cart subsystem of the talipapaup backend.

The Rust source is embedded shallowly:
* `carts` table rows (`models::carts::Model`) become `CartLine`; UUIDs are
  modelled as `Nat`, timestamps-with-timezone as `Nat` instants, `i32`
  quantities as `Int`, `NUMERIC(10,2)` prices as `Rat` (exact arithmetic).
* the database connection becomes an explicit `Store` value threaded through
  each handler; SeaORM's `.one(db)` on a filtered select becomes `head?` of
  the corresponding `List.filter`.
* HTTP responses are collapsed to their status class: `ErrKind.conflict` is
  `HttpResponse::Conflict` (409), `ErrKind.badRequest` is `BadRequest` (400),
  `ErrKind.notFound` is `NotFound` (404).  A handler returns the store it
  leaves behind together with either an error kind or its success payload.
-/

namespace Talipapa

/-- A row of the `carts` table (`models::carts::Model`): one row per
add-to-cart event. -/
structure CartLine where
  id : Nat
  user_id : String
  product_id : Nat
  total_qty : Int
  created_at : Nat
  updated_at : Nat
deriving DecidableEq, Repr

/-- The fields of a `products` row that the cart subsystem reads. -/
structure Product where
  id : Nat
  product_name : String
  description : String
  price : Rat
  img_url : String
deriving DecidableEq, Repr

/-- The relational store backing the handlers: the `carts` and `products`
tables. -/
structure Store where
  carts : List CartLine
  products : List Product
deriving DecidableEq, Repr

/-- Status class of an error response produced by the cart handlers. -/
inductive ErrKind where
  | badRequest
  | notFound
  | conflict
deriving DecidableEq, Repr

/-- `services::carts::find_existing_cart_item`: select on `carts` filtered by
`user_id` and `product_id`, taking `.one` (the first matching row, if any). -/
def find_existing_cart_item (user_id : String) (product_id : Nat)
    (carts : List CartLine) : Option CartLine :=
  (carts.filter (fun c => c.user_id == user_id && c.product_id == product_id)).head?

/-- `services::carts::update_cart_quantity`: add `additional_qty` to the
existing row's `total_qty`, refresh `updated_at`, and persist by primary key.
Returns the updated table and the updated row. -/
def update_cart_quantity (existing_cart : CartLine) (additional_qty : Int)
    (now : Nat) (carts : List CartLine) : List CartLine × CartLine :=
  let updated : CartLine :=
    { existing_cart with
      total_qty := existing_cart.total_qty + additional_qty
      updated_at := now }
  (carts.map (fun c => if c.id = existing_cart.id then updated else c), updated)

/-- `services::carts::create_new_cart_item`: insert a new row with a freshly
generated id (`Uuid::new_v4()`, modelled as the parameter `newId`) and
`created_at = updated_at = now`. -/
def create_new_cart_item (user_id : String) (product_id : Nat)
    (total_qty : Int) (now : Nat) (newId : Nat) (carts : List CartLine) :
    List CartLine × CartLine :=
  let created : CartLine :=
    { id := newId, user_id := user_id, product_id := product_id
      total_qty := total_qty, created_at := now, updated_at := now }
  (carts ++ [created], created)

/-- `services::products::find_product_by_id`: select on `products` filtered by
`id`, taking `.one`. -/
def find_product_by_id (product_id : Nat) (products : List Product) :
    Option Product :=
  (products.filter (fun p => p.id == product_id)).head?

/-- `services::products::validate_product_exists`: `Err(Conflict)` when the
lookup finds nothing (the source answers `HttpResponse::Conflict` with
"No product found with this ID."). -/
def validate_product_exists (product_id : Nat) (products : List Product) :
    Except ErrKind Unit :=
  match find_product_by_id product_id products with
  | none => .error .conflict
  | some _ => .ok ()

/-- Handler `POST /carts/` (`handlers::carts::add_to_cart`).  Order of checks
as in the source: product existence first, then `total_qty <= 0`, then
find-or-create-then-merge. -/
def add_to_cart (s : Store) (user_id : String) (product_id : Nat)
    (total_qty : Int) (now : Nat) (newId : Nat) :
    Store × Except ErrKind CartLine :=
  match validate_product_exists product_id s.products with
  | .error e => (s, .error e)
  | .ok _ =>
    if total_qty ≤ 0 then (s, .error .badRequest)
    else
      match find_existing_cart_item user_id product_id s.carts with
      | some existing_cart =>
        let r := update_cart_quantity existing_cart total_qty now s.carts
        ({ s with carts := r.1 }, .ok r.2)
      | none =>
        let r := create_new_cart_item user_id product_id total_qty now newId s.carts
        ({ s with carts := r.1 }, .ok r.2)

/-- Handler `PUT /carts/qty/{user_id}/{product_id}/{qty}/`
(`handlers::carts::update_cart_qty`).  Order of checks as in the source:
`qty <= 0` first, then product existence, then find; overwrite semantics
(`total_qty = Set(qty)`). -/
def update_cart_qty (s : Store) (user_id : String) (product_id : Nat)
    (qty : Int) (now : Nat) : Store × Except ErrKind CartLine :=
  if qty ≤ 0 then (s, .error .badRequest)
  else
    match validate_product_exists product_id s.products with
    | .error e => (s, .error e)
    | .ok _ =>
      match find_existing_cart_item user_id product_id s.carts with
      | some cart_item =>
        let updated : CartLine := { cart_item with total_qty := qty, updated_at := now }
        ({ s with carts := s.carts.map (fun c => if c.id = cart_item.id then updated else c) },
          .ok updated)
      | none => (s, .error .notFound)

/-- Handler `DELETE /carts/{user_id}/{product_id}`
(`handlers::carts::delete_cart_item`): validate the product, find the single
row for the pair, delete it by primary key. -/
def delete_cart_item (s : Store) (user_id : String) (product_id : Nat) :
    Store × Except ErrKind Unit :=
  match validate_product_exists product_id s.products with
  | .error e => (s, .error e)
  | .ok _ =>
    match (s.carts.filter (fun c => c.user_id == user_id && c.product_id == product_id)).head? with
    | some cart_item =>
      ({ s with carts := s.carts.filter (fun c => c.id != cart_item.id) }, .ok ())
    | none => (s, .error .notFound)

/-- Handler `DELETE /carts/{user_id}`
(`handlers::carts::delete_all_cart_item_per_user_id`): despite its name it
looks up a single row (`.one`) filtered by `user_id` and deletes only that
row. -/
def delete_all_cart_item_per_user_id (s : Store) (user_id : String) :
    Store × Except ErrKind Unit :=
  match (s.carts.filter (fun c => c.user_id == user_id)).head? with
  | some cart_item =>
    ({ s with carts := s.carts.filter (fun c => c.id != cart_item.id) }, .ok ())
  | none => (s, .error .notFound)

/-- A row of the aggregation query's result set (`models::carts::CartsResponse`). -/
structure CartsResponse where
  id : Nat
  product_id : Nat
  total_qty : Int
  created_at : Nat
  updated_at : Nat
  product_name : String
  description : String
  product_price : Rat
  sub_total_price : Rat
  img_url : String
deriving DecidableEq, Repr

/-- All `carts` rows of one user (`WHERE c.user_id = $1`). -/
def user_lines (s : Store) (user_id : String) : List CartLine :=
  s.carts.filter (fun c => c.user_id == user_id)

/-- The user's rows surviving `INNER JOIN products p ON c.product_id = p.id`. -/
def joined_lines (s : Store) (user_id : String) : List CartLine :=
  (user_lines s user_id).filter (fun c => (find_product_by_id c.product_id s.products).isSome)

/-- The row with the minimum `created_at` (first one wins on ties), as selected
by `(array_agg(c.id ORDER BY c.created_at))[1]`. -/
def earliestLine (c : CartLine) (l : List CartLine) : CartLine :=
  l.foldl (fun best x => if x.created_at < best.created_at then x else best) c

/-- One output row of the raw aggregation SQL for product group `pid`:
`SUM(total_qty)`, `MIN(created_at)`, `MAX(updated_at)`, the earliest row's id,
joined product columns, and `SUM(total_qty) * price` as exact `NUMERIC`. -/
def mkRow (s : Store) (user_id : String) (pid : Nat) : Option CartsResponse :=
  match find_product_by_id pid s.products,
        (joined_lines s user_id).filter (fun c => c.product_id == pid) with
  | some p, g0 :: gs =>
    let qty : Int := ((g0 :: gs).map (fun c => c.total_qty)).sum
    some
      { id := (earliestLine g0 gs).id
        product_id := pid
        total_qty := qty
        created_at := gs.foldl (fun m x => Nat.min m x.created_at) g0.created_at
        updated_at := gs.foldl (fun m x => Nat.max m x.updated_at) g0.updated_at
        product_name := p.product_name
        description := p.description
        product_price := p.price
        sub_total_price := (qty : Rat) * p.price
        img_url := p.img_url }
  | _, _ => none

/-- The raw aggregation query of `get_cart_by_user_id`: group the joined rows
by `product_id` and emit one row per group, ordered by `product_id` ascending. -/
def aggregate_for_user (s : Store) (user_id : String) : List CartsResponse :=
  (List.insertionSort (fun a b => a ≤ b)
    ((joined_lines s user_id).map (fun c => c.product_id)).dedup).filterMap
    (mkRow s user_id)

/-- Handler `GET /carts/{user_id}` (`handlers::carts::get_cart_by_user_id`):
a single-row existence probe on `carts`, then the aggregation query; an empty
result set answers `NotFound`. -/
def get_cart_by_user_id (s : Store) (user_id : String) :
    Except ErrKind (List CartsResponse) :=
  match (s.carts.filter (fun c => c.user_id == user_id)).head? with
  | some _ =>
    let rows := aggregate_for_user s user_id
    if rows.isEmpty then .error .notFound else .ok rows
  | none => .error .notFound

/-- The rows of one `(user_id, product_id)` pair. -/
def pairLines (carts : List CartLine) (u : String) (p : Nat) : List CartLine :=
  carts.filter (fun c => c.user_id == u && c.product_id == p)

/-- Service-layer invariant: every `(user_id, product_id)` pair occurs on at
most one row (stated as distinctness of the key list, hence decidable). -/
def AtMostOnePerPair (carts : List CartLine) : Prop :=
  (carts.map (fun c => (c.user_id, c.product_id))).Nodup

/-- Primary-key invariant of the `carts` table: ids are pairwise distinct. -/
def NodupIds (carts : List CartLine) : Prop :=
  (carts.map (fun c => c.id)).Nodup

instance (carts : List CartLine) : Decidable (AtMostOnePerPair carts) := by
  unfold AtMostOnePerPair; infer_instance

instance (carts : List CartLine) : Decidable (NodupIds carts) := by
  unfold NodupIds; infer_instance

/-! ### List helper lemmas -/

lemma head_mem_of_head?_eq {α} {l : List α} {a : α} (h : l.head? = some a) : a ∈ l := by
  cases l with
  | nil => simp at h
  | cons x t =>
    simp only [List.head?_cons, Option.some.injEq] at h
    exact h ▸ List.mem_cons_self x t

lemma eq_singleton_of_head?_of_length_le_one {α} {l : List α} {a : α}
    (hlen : l.length ≤ 1) (h : l.head? = some a) : l = [a] := by
  cases l with
  | nil => simp at h
  | cons x t =>
    cases t with
    | nil => simp only [List.head?_cons, Option.some.injEq] at h; rw [h]
    | cons y u => simp at hlen

lemma nodupIds_inj {l : List CartLine} (h : NodupIds l) :
    ∀ x ∈ l, ∀ y ∈ l, x.id = y.id → x = y := by
  induction l with
  | nil => intro x hx; cases hx
  | cons c t ih =>
    unfold NodupIds at h
    simp only [List.map_cons, List.nodup_cons] at h
    intro x hx y hy hxy
    rcases List.mem_cons.mp hx with hx | hx <;> rcases List.mem_cons.mp hy with hy | hy
    · rw [hx, hy]
    · exact absurd (List.mem_map.mpr ⟨y, hy, (hx ▸ hxy).symm⟩) h.1
    · exact absurd (List.mem_map.mpr ⟨x, hx, hy ▸ hxy⟩) h.1
    · exact ih h.2 x hx y hy hxy

lemma atMostOne_pairLines_length {carts : List CartLine} (h : AtMostOnePerPair carts)
    (u : String) (p : Nat) : (pairLines carts u p).length ≤ 1 := by
  induction carts with
  | nil => simp [pairLines]
  | cons c t ih =>
    unfold AtMostOnePerPair at h
    simp only [List.map_cons, List.nodup_cons] at h
    unfold pairLines
    by_cases hc : (c.user_id == u && c.product_id == p) = true
    · rw [List.filter_cons, if_pos hc]
      have hkey : c.user_id = u ∧ c.product_id = p := by
        simp only [Bool.and_eq_true, beq_iff_eq] at hc; exact hc
      have hnil : t.filter (fun x => x.user_id == u && x.product_id == p) = [] := by
        rw [List.filter_eq_nil_iff]
        intro x hx hqx
        simp only [Bool.and_eq_true, beq_iff_eq] at hqx
        exact h.1 (List.mem_map.mpr ⟨x, hx, by rw [hqx.1, hqx.2, hkey.1, hkey.2]⟩)
      rw [hnil]
      simp
    · rw [List.filter_cons, if_neg hc]
      exact ih h.2

lemma pairLines_eq_single {carts : List CartLine} {u : String} {p : Nat} {e : CartLine}
    (hmo : AtMostOnePerPair carts) (he : find_existing_cart_item u p carts = some e) :
    pairLines carts u p = [e] :=
  eq_singleton_of_head?_of_length_le_one (atMostOne_pairLines_length hmo u p) he

lemma pairLines_eq_nil {carts : List CartLine} {u : String} {p : Nat}
    (he : find_existing_cart_item u p carts = none) : pairLines carts u p = [] :=
  List.head?_eq_none_iff.mp he

lemma map_replace_of_forall_ne {l : List CartLine} {e : CartLine} (upd : CartLine)
    (hne : ∀ x ∈ l, ¬ x.id = e.id) :
    l.map (fun c => if c.id = e.id then upd else c) = l := by
  induction l with
  | nil => rfl
  | cons c t ih =>
    simp only [List.map_cons]
    rw [if_neg (hne c (List.mem_cons_self c t)),
      ih (fun x hx => hne x (List.mem_cons_of_mem c hx))]

lemma filter_map_replace {l : List CartLine} {e upd : CartLine} {q : CartLine → Bool}
    (hfil : l.filter q = [e])
    (hinj : ∀ x ∈ l, x.id = e.id → x = e)
    (hq : q upd = true) :
    (l.map (fun c => if c.id = e.id then upd else c)).filter q = [upd] := by
  induction l with
  | nil => simp at hfil
  | cons c t ih =>
    by_cases hc : q c = true
    · rw [List.filter_cons_of_pos hc] at hfil
      injection hfil with hce hte
      have hne : ∀ x ∈ t, ¬ x.id = e.id := by
        intro x hx hxid
        have hx_eq : x = e := hinj x (List.mem_cons_of_mem c hx) hxid
        have : ¬ q x = true := (List.filter_eq_nil_iff.mp hte) x hx
        rw [hx_eq, ← hce] at this
        exact this hc
      simp only [List.map_cons]
      rw [if_pos (by rw [hce]), map_replace_of_forall_ne upd hne,
        List.filter_cons_of_pos hq, hte]
    · rw [List.filter_cons_of_neg hc] at hfil
      have hqe : q e = true := List.of_mem_filter (hfil ▸ List.mem_singleton_self e)
      have hcid : ¬ c.id = e.id := by
        intro hcide
        have : c = e := hinj c (List.mem_cons_self c t) hcide
        rw [this] at hc
        exact hc hqe
      simp only [List.map_cons]
      rw [if_neg hcid, List.filter_cons_of_neg hc]
      exact ih hfil (fun x hx => hinj x (List.mem_cons_of_mem c hx))

lemma keys_map_replace {l : List CartLine} {e : CartLine} (upd : CartLine)
    (hinj : ∀ x ∈ l, x.id = e.id → x = e)
    (hu : upd.user_id = e.user_id) (hp : upd.product_id = e.product_id) :
    (l.map (fun c => if c.id = e.id then upd else c)).map
        (fun c => (c.user_id, c.product_id))
      = l.map (fun c => (c.user_id, c.product_id)) := by
  induction l with
  | nil => rfl
  | cons c t ih =>
    simp only [List.map_cons]
    have hkey : ((if c.id = e.id then upd else c).user_id,
        (if c.id = e.id then upd else c).product_id) = (c.user_id, c.product_id) := by
      by_cases hc : c.id = e.id
      · have hce : c = e := hinj c (List.mem_cons_self c t) hc
        rw [if_pos hc, hu, hp, hce]
      · rw [if_neg hc]
    rw [hkey, ih (fun x hx => hinj x (List.mem_cons_of_mem c hx))]

lemma atMostOne_of_keys_eq {l l' : List CartLine}
    (h : l'.map (fun c => (c.user_id, c.product_id))
        = l.map (fun c => (c.user_id, c.product_id)))
    (hmo : AtMostOnePerPair l) : AtMostOnePerPair l' := by
  unfold AtMostOnePerPair at hmo ⊢
  rw [h]
  exact hmo

lemma atMostOne_sublist {l l' : List CartLine} (h : List.Sublist l' l)
    (hmo : AtMostOnePerPair l) : AtMostOnePerPair l' :=
  List.Nodup.sublist (List.Sublist.map _ h) hmo

lemma atMostOne_append_new {l : List CartLine} {n : CartLine}
    (hmo : AtMostOnePerPair l)
    (hnone : pairLines l n.user_id n.product_id = []) :
    AtMostOnePerPair (l ++ [n]) := by
  have hkey : (n.user_id, n.product_id)
      ∉ l.map (fun c => (c.user_id, c.product_id)) := by
    intro hmem
    obtain ⟨c, hc, hck⟩ := List.mem_map.mp hmem
    have h1 : c.user_id = n.user_id := congrArg Prod.fst hck
    have h2 : c.product_id = n.product_id := congrArg Prod.snd hck
    have : c ∈ pairLines l n.user_id n.product_id :=
      List.mem_filter.mpr ⟨hc, by simp [h1, h2]⟩
    rw [hnone] at this
    cases this
  have hmo' : (l.map (fun c => (c.user_id, c.product_id))).Nodup := hmo
  unfold AtMostOnePerPair
  rw [List.map_append]
  simp only [List.map_cons, List.map_nil]
  simp [List.nodup_append, hmo', hkey]

/-! ### Claims C1 to C6 -/

/-- C1: on a pair with an existing line of quantity `q0`, `AddToCart(qty)` with
`qty > 0` for an existing product leaves exactly one cart line for the pair,
with `total_qty = q0 + qty` (additive, not overwrite) and `updated_at = now`. -/
theorem addToCart_merges_existing (s : Store) (u : String) (p : Nat) (qty : Int)
    (now nid : Nat) (e : CartLine)
    (hmo : AtMostOnePerPair s.carts) (hid : NodupIds s.carts)
    (hprod : (find_product_by_id p s.products).isSome)
    (hq : 0 < qty)
    (he : find_existing_cart_item u p s.carts = some e) :
    (add_to_cart s u p qty now nid).2
        = Except.ok { e with total_qty := e.total_qty + qty, updated_at := now } ∧
      pairLines (add_to_cart s u p qty now nid).1.carts u p
        = [{ e with total_qty := e.total_qty + qty, updated_at := now }] := by
  obtain ⟨pr, hpr⟩ := Option.isSome_iff_exists.mp hprod
  have hq' : ¬ qty ≤ 0 := not_le.mpr hq
  have hfil : pairLines s.carts u p = [e] := pairLines_eq_single hmo he
  have hmemf : e ∈ pairLines s.carts u p := hfil ▸ List.mem_singleton_self e
  have hmem : e ∈ s.carts := List.mem_of_mem_filter hmemf
  have hfil' : s.carts.filter (fun c => c.user_id == u && c.product_id == p)
      = [e] := hfil
  have hmemf' : e ∈ s.carts.filter
      (fun c => c.user_id == u && c.product_id == p) := by
    rw [hfil']
    exact List.mem_singleton_self e
  have hqe := List.of_mem_filter hmemf'
  simp only [add_to_cart, validate_product_exists, hpr, if_neg hq', he,
    update_cart_quantity]
  refine ⟨trivial, ?_⟩
  unfold pairLines
  exact filter_map_replace hfil' (fun x hx => nodupIds_inj hid x hx e hmem) hqe

/-- The C2 property: each of the four mutating handlers preserves the
at-most-one-row-per-pair invariant, on success and on error alike. -/
def PreservesPairInvariant (s : Store) : Prop :=
  (∀ u p q now nid, AtMostOnePerPair (add_to_cart s u p q now nid).1.carts) ∧
  (∀ u p q now, AtMostOnePerPair (update_cart_qty s u p q now).1.carts) ∧
  (∀ u p, AtMostOnePerPair (delete_cart_item s u p).1.carts) ∧
  (∀ u, AtMostOnePerPair (delete_all_cart_item_per_user_id s u).1.carts)

/-- C2: from a store satisfying the at-most-one-line-per-pair invariant (with
distinct primary keys), every sequential execution of AddToCart,
UpdateCartQuantity, RemoveCartItem or ClearCart preserves the invariant. -/
theorem cart_ops_preserve_invariant (s : Store)
    (hmo : AtMostOnePerPair s.carts) (hid : NodupIds s.carts) :
    PreservesPairInvariant s := by
  refine ⟨?_, ?_, ?_, ?_⟩
  · intro u p q now nid
    cases hval : validate_product_exists p s.products with
    | error err => simp only [add_to_cart, hval]; exact hmo
    | ok u0 =>
      by_cases hq : q ≤ 0
      · simp only [add_to_cart, hval, if_pos hq]; exact hmo
      · cases hfind : find_existing_cart_item u p s.carts with
        | some ecart =>
          have hmemf : ecart ∈ s.carts.filter
              (fun c => c.user_id == u && c.product_id == p) :=
            head_mem_of_head?_eq hfind
          have hmem : ecart ∈ s.carts := List.mem_of_mem_filter hmemf
          simp only [add_to_cart, hval, if_neg hq, hfind, update_cart_quantity]
          exact atMostOne_of_keys_eq
            (keys_map_replace _ (fun x hx => nodupIds_inj hid x hx ecart hmem) rfl rfl)
            hmo
        | none =>
          simp only [add_to_cart, hval, if_neg hq, hfind, create_new_cart_item]
          exact atMostOne_append_new hmo (pairLines_eq_nil hfind)
  · intro u p q now
    by_cases hq : q ≤ 0
    · simp only [update_cart_qty, if_pos hq]; exact hmo
    · cases hval : validate_product_exists p s.products with
      | error err => simp only [update_cart_qty, if_neg hq, hval]; exact hmo
      | ok u0 =>
        cases hfind : find_existing_cart_item u p s.carts with
        | some item =>
          have hmemf : item ∈ s.carts.filter
              (fun c => c.user_id == u && c.product_id == p) :=
            head_mem_of_head?_eq hfind
          have hmem : item ∈ s.carts := List.mem_of_mem_filter hmemf
          simp only [update_cart_qty, if_neg hq, hval, hfind]
          exact atMostOne_of_keys_eq
            (keys_map_replace _ (fun x hx => nodupIds_inj hid x hx item hmem) rfl rfl)
            hmo
        | none => simp only [update_cart_qty, if_neg hq, hval, hfind]; exact hmo
  · intro u p
    cases hval : validate_product_exists p s.products with
    | error err => simp only [delete_cart_item, hval]; exact hmo
    | ok u0 =>
      cases hfind : (s.carts.filter
          (fun c => c.user_id == u && c.product_id == p)).head? with
      | some item =>
        simp only [delete_cart_item, hval, hfind]
        exact atMostOne_sublist (List.filter_sublist s.carts) hmo
      | none => simp only [delete_cart_item, hval, hfind]; exact hmo
  · intro u
    cases hfind : (s.carts.filter (fun c => c.user_id == u)).head? with
    | some item =>
      simp only [delete_all_cart_item_per_user_id, hfind]
      exact atMostOne_sublist (List.filter_sublist s.carts) hmo
    | none => simp only [delete_all_cart_item_per_user_id, hfind]; exact hmo

/-- The C3 property: with no prior line for the pair, `AddToCart` appends
exactly one new line, carrying `total_qty = qty`, the freshly generated id
`nid` (distinct from every existing id), and `created_at = updated_at = now`. -/
def AddCreatesSpec (s : Store) (u : String) (p : Nat) (qty : Int)
    (now nid : Nat) : Prop :=
  ∃ created : CartLine,
    (add_to_cart s u p qty now nid).2 = Except.ok created ∧
    created.total_qty = qty ∧ created.id = nid ∧
    created.created_at = now ∧ created.updated_at = now ∧
    created.user_id = u ∧ created.product_id = p ∧
    (add_to_cart s u p qty now nid).1.carts = s.carts ++ [created] ∧
    pairLines (add_to_cart s u p qty now nid).1.carts u p = [created] ∧
    ∀ c ∈ s.carts, c.id ≠ created.id

/-- C3: `AddToCart` with `qty > 0` on an existing product and no prior cart
line for the pair creates exactly one new cart line with `total_qty = qty`,
a fresh id, and `created_at = updated_at = now`. -/
theorem addToCart_creates_new (s : Store) (u : String) (p : Nat) (qty : Int)
    (now nid : Nat)
    (hprod : (find_product_by_id p s.products).isSome)
    (hq : 0 < qty)
    (hnone : find_existing_cart_item u p s.carts = none)
    (hfresh : nid ∉ s.carts.map (fun c => c.id)) :
    AddCreatesSpec s u p qty now nid := by
  obtain ⟨pr, hpr⟩ := Option.isSome_iff_exists.mp hprod
  have hq' : ¬ qty ≤ 0 := not_le.mpr hq
  refine ⟨⟨nid, u, p, qty, now, now⟩, ?_⟩
  simp only [add_to_cart, validate_product_exists, hpr, if_neg hq', hnone,
    create_new_cart_item]
  refine ⟨trivial, trivial, trivial, trivial, trivial, trivial, trivial,
    trivial, ?_, ?_⟩
  · unfold pairLines
    rw [List.filter_append,
      show s.carts.filter (fun c => c.user_id == u && c.product_id == p) = []
        from pairLines_eq_nil hnone]
    simp
  · intro c hc hcid
    exact hfresh (List.mem_map.mpr ⟨c, hc, hcid⟩)

/-- C4 (amended): `AddToCart` on a missing product fails with the
conflict-class error the source emits (`HttpResponse::Conflict`), and performs
no write. -/
theorem addToCart_missing_product_conflict (s : Store) (u : String) (p : Nat)
    (qty : Int) (now nid : Nat)
    (h : find_product_by_id p s.products = none) :
    add_to_cart s u p qty now nid = (s, Except.error ErrKind.conflict) := by
  simp only [add_to_cart, validate_product_exists, h]

/-- C4 counterexample: at a concrete input with a nonexistent product,
`AddToCart` does not fail with NotFound (it answers the conflict-class error),
though it indeed performs no write. -/
theorem addToCart_missing_product_not_notFound :
    (add_to_cart { carts := [], products := [] } "u1" 1 2 0 50).2
        = Except.error ErrKind.conflict ∧
      ErrKind.conflict ≠ ErrKind.notFound ∧
      (add_to_cart { carts := [], products := [] } "u1" 1 2 0 50).1
        = { carts := [], products := [] } :=
  ⟨rfl, by decide, rfl⟩

/-- C5 (amended): `AddToCart` with `qty ≤ 0` on an existing product fails with
InvalidArgument (`HttpResponse::BadRequest`) and performs no write; when the
product does not exist the product check fires first instead. -/
theorem addToCart_nonpositive_qty_badRequest (s : Store) (u : String) (p : Nat)
    (qty : Int) (now nid : Nat)
    (hprod : (find_product_by_id p s.products).isSome)
    (hq : qty ≤ 0) :
    add_to_cart s u p qty now nid = (s, Except.error ErrKind.badRequest) := by
  obtain ⟨pr, hpr⟩ := Option.isSome_iff_exists.mp hprod
  simp only [add_to_cart, validate_product_exists, hpr, if_pos hq]

/-- C5 counterexample: at a concrete input with `qty = 0` but a nonexistent
product, `AddToCart` does not fail with InvalidArgument — the product
existence check runs first and answers the conflict-class error. -/
theorem addToCart_nonpositive_qty_not_badRequest :
    (add_to_cart { carts := [], products := [] } "u1" 1 0 0 50).2
        = Except.error ErrKind.conflict ∧
      ErrKind.conflict ≠ ErrKind.badRequest :=
  ⟨rfl, by decide⟩

/-- The C6 property: `UpdateCartQuantity` overwrites the pair's single line to
exactly `new_qty` (not added), and answers NotFound when no line exists. -/
def UpdateOverwritesSpec (s : Store) (u : String) (p : Nat) (qty : Int)
    (now : Nat) : Prop :=
  (∀ item, find_existing_cart_item u p s.carts = some item →
    (update_cart_qty s u p qty now).2
        = Except.ok { item with total_qty := qty, updated_at := now } ∧
      pairLines (update_cart_qty s u p qty now).1.carts u p
        = [{ item with total_qty := qty, updated_at := now }]) ∧
  (find_existing_cart_item u p s.carts = none →
    update_cart_qty s u p qty now = (s, Except.error ErrKind.notFound))

/-- C6: for an existing product and `new_qty > 0`, `UpdateCartQuantity` sets
the pair's single cart line to exactly `new_qty` (overwrite, not addition),
and fails with NotFound when no cart line exists for the pair. -/
theorem updateCartQty_overwrites (s : Store) (u : String) (p : Nat) (qty : Int)
    (now : Nat)
    (hmo : AtMostOnePerPair s.carts) (hid : NodupIds s.carts)
    (hprod : (find_product_by_id p s.products).isSome)
    (hq : 0 < qty) : UpdateOverwritesSpec s u p qty now := by
  obtain ⟨pr, hpr⟩ := Option.isSome_iff_exists.mp hprod
  have hq' : ¬ qty ≤ 0 := not_le.mpr hq
  constructor
  · intro item hitem
    have hfil : pairLines s.carts u p = [item] := pairLines_eq_single hmo hitem
    have hmemf : item ∈ pairLines s.carts u p := hfil ▸ List.mem_singleton_self item
    have hmem : item ∈ s.carts := List.mem_of_mem_filter hmemf
    have hfil' : s.carts.filter (fun c => c.user_id == u && c.product_id == p)
        = [item] := hfil
    have hmemf' : item ∈ s.carts.filter
        (fun c => c.user_id == u && c.product_id == p) := by
      rw [hfil']
      exact List.mem_singleton_self item
    have hqe := List.of_mem_filter hmemf'
    simp only [update_cart_qty, if_neg hq', validate_product_exists, hpr, hitem]
    refine ⟨trivial, ?_⟩
    unfold pairLines
    exact filter_map_replace hfil'
      (fun x hx => nodupIds_inj hid x hx item hmem) hqe
  · intro hnone
    simp only [update_cart_qty, if_neg hq', validate_product_exists, hpr, hnone]

/-! ### Claims C8 to C10 -/

lemma nodupIds_sublist {l l' : List CartLine} (h : List.Sublist l' l)
    (hid : NodupIds l) : NodupIds l' :=
  List.Nodup.sublist (List.Sublist.map _ h) hid

/-- The C8 property: the "delete all for user" handler deletes only the first
row found by its single-row lookup — the user's remaining rows and every other
row survive — and answers NotFound when the user has no rows. -/
def ClearCartSpec (s : Store) (u : String) : Prop :=
  (∀ hd rest, user_lines s u = hd :: rest →
    (delete_all_cart_item_per_user_id s u).2 = Except.ok () ∧
    (delete_all_cart_item_per_user_id s u).1.products = s.products ∧
    user_lines (delete_all_cart_item_per_user_id s u).1 u = rest ∧
    ∀ c ∈ s.carts, c ≠ hd →
      c ∈ (delete_all_cart_item_per_user_id s u).1.carts) ∧
  (user_lines s u = [] →
    delete_all_cart_item_per_user_id s u = (s, Except.error ErrKind.notFound))

/-- C8: ClearCart deletes only the first matching row of the user found by its
single-row lookup, leaving all the user's other cart lines in the store, and
fails with NotFound when the user has no rows. -/
theorem clearCart_deletes_only_first_row (s : Store) (u : String)
    (hid : NodupIds s.carts) : ClearCartSpec s u := by
  constructor
  · intro hd rest hul
    have hulf : s.carts.filter (fun c => c.user_id == u) = hd :: rest := hul
    have hhead : (s.carts.filter (fun c => c.user_id == u)).head? = some hd := by
      rw [hulf]
      rfl
    have hmemhd : hd ∈ s.carts :=
      List.mem_of_mem_filter (hulf ▸ List.mem_cons_self hd rest)
    have hidrest : hd.id ∉ rest.map (fun c => c.id) := by
      have hsub : NodupIds (s.carts.filter (fun c => c.user_id == u)) :=
        nodupIds_sublist (List.filter_sublist s.carts) hid
      rw [hulf] at hsub
      unfold NodupIds at hsub
      simp only [List.map_cons, List.nodup_cons] at hsub
      exact hsub.1
    simp only [delete_all_cart_item_per_user_id, hhead]
    refine ⟨trivial, trivial, ?_, ?_⟩
    · show (s.carts.filter (fun c => c.id != hd.id)).filter
        (fun c => c.user_id == u) = rest
      have hcomm : (s.carts.filter (fun c => c.id != hd.id)).filter
          (fun c => c.user_id == u)
          = (s.carts.filter (fun c => c.user_id == u)).filter
            (fun c => c.id != hd.id) := by
        rw [List.filter_filter, List.filter_filter]
        exact List.filter_congr (fun a _ => Bool.and_comm _ _)
      rw [hcomm, hulf, List.filter_cons, if_neg (by simp)]
      rw [List.filter_eq_self]
      intro x hx
      have : x.id ≠ hd.id := by
        intro hxid
        exact hidrest (List.mem_map.mpr ⟨x, hx, hxid⟩)
      simpa using this
    · intro c hc hne
      refine List.mem_filter.mpr ⟨hc, ?_⟩
      have : c.id ≠ hd.id := by
        intro hcid
        exact hne (nodupIds_inj hid c hc hd hmemhd hcid)
      simpa using this
  · intro hul
    have hhead : (s.carts.filter (fun c => c.user_id == u)).head? = none := by
      rw [show s.carts.filter (fun c => c.user_id == u) = [] from hul]
      rfl
    simp only [delete_all_cart_item_per_user_id, hhead]

/-- The C9 property: on a pair holding exactly one cart line of an existing
product, RemoveCartItem succeeds and removes the line, and a second identical
call answers NotFound without touching the store. -/
def RemoveTwiceSpec (s : Store) (u : String) (p : Nat) : Prop :=
  ∀ item, pairLines s.carts u p = [item] →
    (delete_cart_item s u p).2 = Except.ok () ∧
    pairLines (delete_cart_item s u p).1.carts u p = [] ∧
    delete_cart_item (delete_cart_item s u p).1 u p
      = ((delete_cart_item s u p).1, Except.error ErrKind.notFound)

/-- C9: RemoveCartItem is delete-then-NotFound: with exactly one cart line for
the pair of an existing product, the first call deletes it and the second call
fails with NotFound, leaving the store unchanged. -/
theorem removeCartItem_twice (s : Store) (u : String) (p : Nat)
    (hprod : (find_product_by_id p s.products).isSome) :
    RemoveTwiceSpec s u p := by
  obtain ⟨pr, hpr⟩ := Option.isSome_iff_exists.mp hprod
  intro item hfil
  have hfil' : s.carts.filter (fun c => c.user_id == u && c.product_id == p)
      = [item] := hfil
  have hhead : (s.carts.filter
      (fun c => c.user_id == u && c.product_id == p)).head? = some item := by
    rw [hfil']
    rfl
  have hpl : (s.carts.filter (fun c => c.id != item.id)).filter
      (fun c => c.user_id == u && c.product_id == p) = [] := by
    have hcomm : (s.carts.filter (fun c => c.id != item.id)).filter
        (fun c => c.user_id == u && c.product_id == p)
        = (s.carts.filter
            (fun c => c.user_id == u && c.product_id == p)).filter
          (fun c => c.id != item.id) := by
      rw [List.filter_filter, List.filter_filter]
      exact List.filter_congr (fun a _ => Bool.and_comm _ _)
    rw [hcomm, hfil', List.filter_cons, if_neg (by simp)]
    rfl
  simp only [delete_cart_item, validate_product_exists, hpr, hhead]
  refine ⟨trivial, hpl, ?_⟩
  have hhead2 : (((s.carts.filter (fun c => c.id != item.id)).filter
      (fun c => c.user_id == u && c.product_id == p))).head? = none := by
    rw [hpl]
    rfl
  simp only [delete_cart_item, validate_product_exists, hpr, hhead2]

/-- The C10 property: every cart line of the user is dropped by the inner
join, the aggregated view is empty, and the handler answers NotFound. -/
def OrphanedNotFoundSpec (s : Store) (u : String) : Prop :=
  joined_lines s u = [] ∧ aggregate_for_user s u = [] ∧
  get_cart_by_user_id s u = Except.error ErrKind.notFound

/-- C10: when all of a user's cart lines reference deleted products, the inner
join drops every line, so GetCartForUser fails with NotFound although the user
still has cart rows in the store. -/
theorem getCart_orphaned_lines_notFound (s : Store) (u : String)
    (hne : user_lines s u ≠ [])
    (horph : ∀ c ∈ user_lines s u,
      find_product_by_id c.product_id s.products = none) :
    OrphanedNotFoundSpec s u := by
  have hj : joined_lines s u = [] := by
    unfold joined_lines
    rw [List.filter_eq_nil_iff]
    intro c hc
    simp [horph c hc]
  have hagg : aggregate_for_user s u = [] := by
    unfold aggregate_for_user
    rw [hj]
    rfl
  refine ⟨hj, hagg, ?_⟩
  cases hh : (s.carts.filter (fun c => c.user_id == u)).head? with
  | none => exact absurd (List.head?_eq_none_iff.mp hh) hne
  | some c =>
    simp only [get_cart_by_user_id, hh, hagg]
    rfl

/-! ### Claim C7: the aggregation query -/

lemma earliestLine_mem (c : CartLine) (l : List CartLine) :
    earliestLine c l ∈ c :: l := by
  induction l generalizing c with
  | nil => simp [earliestLine]
  | cons x t ih =>
    unfold earliestLine
    rw [List.foldl_cons]
    have h := ih (if x.created_at < c.created_at then x else c)
    unfold earliestLine at h
    rcases List.mem_cons.mp h with h1 | h1
    · rw [h1]
      by_cases hx : x.created_at < c.created_at
      · rw [if_pos hx]
        exact List.mem_cons_of_mem c (List.mem_cons_self x t)
      · rw [if_neg hx]
        exact List.mem_cons_self c (x :: t)
    · exact List.mem_cons_of_mem c (List.mem_cons_of_mem x h1)

lemma earliestLine_created (c : CartLine) (l : List CartLine) :
    (earliestLine c l).created_at
      = l.foldl (fun m x => Nat.min m x.created_at) c.created_at := by
  induction l generalizing c with
  | nil => rfl
  | cons x t ih =>
    unfold earliestLine
    rw [List.foldl_cons, List.foldl_cons]
    have h := ih (if x.created_at < c.created_at then x else c)
    unfold earliestLine at h
    have hinit : (if x.created_at < c.created_at then x else c).created_at
        = Nat.min c.created_at x.created_at := by
      by_cases hx : x.created_at < c.created_at
      · rw [if_pos hx]
        exact (min_eq_right (Nat.le_of_lt hx)).symm
      · rw [if_neg hx]
        exact (min_eq_left (Nat.le_of_not_lt hx)).symm
    rw [h, hinit]

lemma foldl_min_bounds (l : List CartLine) (a : Nat) :
    l.foldl (fun m x => Nat.min m x.created_at) a ≤ a ∧
      ∀ x ∈ l, l.foldl (fun m x => Nat.min m x.created_at) a ≤ x.created_at := by
  induction l generalizing a with
  | nil =>
    exact ⟨le_refl a, fun x hx => absurd hx (List.not_mem_nil x)⟩
  | cons y t ih =>
    rw [List.foldl_cons]
    refine ⟨le_trans (ih (Nat.min a y.created_at)).1 (Nat.min_le_left _ _), ?_⟩
    intro x hx
    rcases List.mem_cons.mp hx with h1 | h1
    · subst h1
      exact le_trans (ih (Nat.min a x.created_at)).1 (Nat.min_le_right _ _)
    · exact (ih (Nat.min a y.created_at)).2 x h1

lemma map_filterMap_of_total {α β : Type} (f : α → Option β) (g : β → α)
    (l : List α) (h : ∀ a ∈ l, ∃ b, f a = some b ∧ g b = a) :
    (l.filterMap f).map g = l := by
  induction l with
  | nil => rfl
  | cons a t ih =>
    obtain ⟨b, hb, hgb⟩ := h a (List.mem_cons_self a t)
    simp only [List.filterMap_cons, hb]
    rw [List.map_cons, hgb, ih (fun x hx => h x (List.mem_cons_of_mem a hx))]

lemma mkRow_total (s : Store) (u : String) (pid : Nat)
    (h : pid ∈ (joined_lines s u).map (fun c => c.product_id)) :
    ∃ row, mkRow s u pid = some row ∧ row.product_id = pid := by
  obtain ⟨c, hc, hcp⟩ := List.mem_map.mp h
  have hc' : c ∈ (user_lines s u).filter
      (fun c => (find_product_by_id c.product_id s.products).isSome) := hc
  have hsome : (find_product_by_id c.product_id s.products).isSome :=
    (List.mem_filter.mp hc').2
  rw [hcp] at hsome
  obtain ⟨p, hp⟩ := Option.isSome_iff_exists.mp hsome
  have hcg : c ∈ (joined_lines s u).filter (fun x => x.product_id == pid) :=
    List.mem_filter.mpr ⟨hc, by simp [hcp]⟩
  cases hg : (joined_lines s u).filter (fun x => x.product_id == pid) with
  | nil =>
    rw [hg] at hcg
    cases hcg
  | cons g0 gs =>
    have hrow : mkRow s u pid = some
        { id := (earliestLine g0 gs).id
          product_id := pid
          total_qty := ((g0 :: gs).map (fun c => c.total_qty)).sum
          created_at := gs.foldl (fun m x => Nat.min m x.created_at) g0.created_at
          updated_at := gs.foldl (fun m x => Nat.max m x.updated_at) g0.updated_at
          product_name := p.product_name
          description := p.description
          product_price := p.price
          sub_total_price :=
            IntCast.intCast (((g0 :: gs).map (fun c => c.total_qty)).sum) * p.price
          img_url := p.img_url } := by
      simp only [mkRow, hp, hg]
    exact ⟨_, hrow, rfl⟩

lemma pairLines_eq_user_filter (s : Store) (u : String) (pid : Nat) :
    (user_lines s u).filter (fun c => c.product_id == pid)
      = pairLines s.carts u pid := by
  unfold user_lines pairLines
  rw [List.filter_filter]
  exact List.filter_congr (fun a _ => Bool.and_comm _ _)

/-- The C7 property: the aggregated view has one row per distinct product in
the user's cart, ordered by product id ascending; each row sums all that
product's line quantities, takes `created_at` as the group minimum, its `id`
from a line attaining that minimum, and computes
`sub_total_price = total_qty * price` exactly over the rationals. -/
def AggregateSpec (s : Store) (u : String) : Prop :=
  List.Sorted (fun a b => a ≤ b)
    ((aggregate_for_user s u).map (fun r => r.product_id)) ∧
  ((aggregate_for_user s u).map (fun r => r.product_id)).Nodup ∧
  (∀ pid, pid ∈ (aggregate_for_user s u).map (fun r => r.product_id) ↔
    pid ∈ (user_lines s u).map (fun c => c.product_id)) ∧
  ∀ r ∈ aggregate_for_user s u,
    r.total_qty
        = ((pairLines s.carts u r.product_id).map (fun c => c.total_qty)).sum ∧
    (∀ c ∈ pairLines s.carts u r.product_id, r.created_at ≤ c.created_at) ∧
    (∃ c ∈ pairLines s.carts u r.product_id,
      c.id = r.id ∧ c.created_at = r.created_at) ∧
    ∃ pr, find_product_by_id r.product_id s.products = some pr ∧
      r.product_price = pr.price ∧
      r.sub_total_price = (r.total_qty : Rat) * pr.price

/-- C7: for a user all of whose cart lines reference existing products,
`AggregateForUser` returns one row per distinct product with summed
quantities (duplicates included), minimum `created_at`, the id of an
earliest-created line, exact decimal `sub_total_price = total_qty * price`,
ordered by product id ascending. -/
theorem aggregate_for_user_spec (s : Store) (u : String)
    (hall : ∀ c ∈ user_lines s u,
      (find_product_by_id c.product_id s.products).isSome) :
    AggregateSpec s u := by
  have hJ : joined_lines s u = user_lines s u := by
    unfold joined_lines
    rw [List.filter_eq_self]
    exact hall
  have htot : ∀ pid ∈ List.insertionSort (fun a b => a ≤ b)
      ((joined_lines s u).map (fun c => c.product_id)).dedup,
      ∃ row, mkRow s u pid = some row ∧ row.product_id = pid := by
    intro pid hpid
    exact mkRow_total s u pid
      (List.mem_dedup.mp ((List.perm_insertionSort _ _).mem_iff.mp hpid))
  have hmapA : (aggregate_for_user s u).map (fun r => r.product_id)
      = List.insertionSort (fun a b => a ≤ b)
        ((joined_lines s u).map (fun c => c.product_id)).dedup :=
    map_filterMap_of_total _ _ _ htot
  refine ⟨?_, ?_, ?_, ?_⟩
  · rw [hmapA]
    exact List.sorted_insertionSort _ _
  · rw [hmapA]
    exact (List.perm_insertionSort _ _).nodup_iff.mpr (List.nodup_dedup _)
  · intro pid
    rw [hmapA, (List.perm_insertionSort _ _).mem_iff, List.mem_dedup, hJ]
  · intro r hr
    obtain ⟨pid, hpid, hmk⟩ := List.mem_filterMap.mp hr
    cases hf : find_product_by_id pid s.products with
    | none => simp [mkRow, hf] at hmk
    | some p =>
      cases hg : (joined_lines s u).filter (fun x => x.product_id == pid) with
      | nil => simp [mkRow, hf, hg] at hmk
      | cons g0 gs =>
        simp only [mkRow, hf, hg, Option.some.injEq] at hmk
        have hgroup : pairLines s.carts u pid = g0 :: gs := by
          rw [← pairLines_eq_user_filter, ← hJ, hg]
        subst hmk
        refine ⟨by rw [hgroup], ?_, ?_, ⟨p, hf, rfl, rfl⟩⟩
        · rw [hgroup]
          intro c hc
          rcases List.mem_cons.mp hc with h1 | h1
          · subst h1
            exact (foldl_min_bounds gs c.created_at).1
          · exact (foldl_min_bounds gs g0.created_at).2 c h1
        · refine ⟨earliestLine g0 gs, ?_, rfl, earliestLine_created g0 gs⟩
          rw [hgroup]
          exact earliestLine_mem g0 gs

/-! ### Concrete data for the witnesses -/

/-- Sample product: price 9.99, as in the spec's concrete scenario. -/
def wProduct : Product :=
  { id := 1, product_name := "apple", description := "fruit",
    price := (999 : Rat)/100, img_url := "a.png" }

/-- Sample cart line of user `u1` holding product 1 with quantity 2. -/
def wLine : CartLine :=
  { id := 10, user_id := "u1", product_id := 1, total_qty := 2,
    created_at := 1, updated_at := 1 }

/-- Store with one cart line and one product. -/
def wStore : Store := { carts := [wLine], products := [wProduct] }

/-- Store with the product but an empty cart. -/
def wStoreNoCarts : Store := { carts := [], products := [wProduct] }

/-- Empty store: no carts, no products. -/
def wStoreNoProducts : Store := { carts := [], products := [] }

/-- Store whose single cart line has quantity 5 (the spec's 5-to-3 example). -/
def wStoreQtyFive : Store :=
  { carts := [⟨10, "u1", 1, 5, 1, 1⟩], products := [wProduct] }

/-- Store with two cart lines of user `u1` for the same product (a
race-created duplicate): quantities 2 and 3, created at 5 and 3. -/
def wStoreDup : Store :=
  { carts := [⟨21, "u1", 1, 2, 5, 5⟩, ⟨22, "u1", 1, 3, 3, 8⟩],
    products := [wProduct] }

/-- Store with two cart lines of user `u1` for different products. -/
def wStoreTwoLines : Store :=
  { carts := [⟨10, "u1", 1, 2, 1, 1⟩, ⟨11, "u1", 2, 4, 2, 2⟩],
    products := [wProduct] }

/-- Store whose single cart line references a product that no longer exists. -/
def wStoreOrphan : Store := { carts := [wLine], products := [] }

theorem addToCart_merges_existing_witness :
    (add_to_cart wStore "u1" 1 3 7 99).2
        = Except.ok { wLine with total_qty := wLine.total_qty + 3, updated_at := 7 } ∧
      pairLines (add_to_cart wStore "u1" 1 3 7 99).1.carts "u1" 1
        = [{ wLine with total_qty := wLine.total_qty + 3, updated_at := 7 }] :=
  addToCart_merges_existing wStore "u1" 1 3 7 99 wLine (by decide) (by decide)
    (by decide) (by decide) (by decide)

theorem cart_ops_preserve_invariant_witness : PreservesPairInvariant wStore :=
  cart_ops_preserve_invariant wStore (by decide) (by decide)

theorem addToCart_creates_new_witness : AddCreatesSpec wStoreNoCarts "u1" 1 2 5 42 :=
  addToCart_creates_new wStoreNoCarts "u1" 1 2 5 42 (by decide) (by decide)
    (by decide) (by decide)

theorem addToCart_missing_product_conflict_witness :
    add_to_cart wStoreNoProducts "u1" 1 2 0 50
      = (wStoreNoProducts, Except.error ErrKind.conflict) :=
  addToCart_missing_product_conflict wStoreNoProducts "u1" 1 2 0 50 rfl

theorem addToCart_nonpositive_qty_badRequest_witness :
    add_to_cart wStore "u1" 1 0 7 99 = (wStore, Except.error ErrKind.badRequest) :=
  addToCart_nonpositive_qty_badRequest wStore "u1" 1 0 7 99 (by decide) (by decide)

theorem updateCartQty_overwrites_witness : UpdateOverwritesSpec wStoreQtyFive "u1" 1 3 9 :=
  updateCartQty_overwrites wStoreQtyFive "u1" 1 3 9 (by decide) (by decide)
    (by decide) (by decide)

theorem aggregate_for_user_spec_witness : AggregateSpec wStoreDup "u1" :=
  aggregate_for_user_spec wStoreDup "u1" (by decide)

theorem clearCart_deletes_only_first_row_witness : ClearCartSpec wStoreTwoLines "u1" :=
  clearCart_deletes_only_first_row wStoreTwoLines "u1" (by decide)

theorem removeCartItem_twice_witness : RemoveTwiceSpec wStore "u1" 1 :=
  removeCartItem_twice wStore "u1" 1 (by decide)

theorem getCart_orphaned_lines_notFound_witness : OrphanedNotFoundSpec wStoreOrphan "u1" :=
  getCart_orphaned_lines_notFound wStoreOrphan "u1" (by decide) (by decide)

end Talipapa
